import Mathlib

/-!
Verification of the retrieval-and-filtering pipeline and JSON-RPC protocol
loop of `query-qdrant.py` (an MCP tool server for semantic search over a
source-code corpus), as a shallow embedding in Lean 4.

Modelling conventions:
* Python strings are modelled as `List Char` (`PyStr`); every string
  operation the program uses (`lower`, `split`, `in`, slicing, `join`,
  f-string interpolation) is defined below as an executable function with
  Python semantics.
* Vector-store scores (Python floats) are modelled as rationals `ℚ`; the
  program only compares scores, never does float arithmetic on them.
* The embedding backend, the vector-store backend and the filesystem are
  external collaborators; they enter the model as fields of an `Env`
  record.  The three alternative vector-store call shapes
  (`query_points` / `search` / `search_points`) differ only in client
  library capability probing, so they collapse into the single `Env.search`
  interface function.  A raising backend call is a `.error` value.
* `json.loads` is external; a protocol input line is modelled as
  `Option JVal`: `none` for a line the JSON parser rejects, `some v` for a
  line that parses to the JSON value `v`.
-/

/-- Python strings, modelled as lists of characters. -/
abbrev PyStr := List Char

/-- Conversion from a Lean string literal to the `PyStr` model. -/
def pyOf (s : String) : PyStr := s.toList

/-- Characters treated as whitespace by Python `str.split()` (ASCII range). -/
def pyIsSpace (c : Char) : Bool :=
  c = ' ' || c = '\t' || c = '\n' || c = '\r' || c = '\x0b' || c = '\x0c'

/-- Python `str.lower()` (the program only lowercases ASCII text). -/
def pyLower (s : PyStr) : PyStr := s.map Char.toLower

/-- Python `needle in hay` substring containment on strings. -/
def pyIsInfix (needle : PyStr) : PyStr → Bool
  | [] => needle.isEmpty
  | c :: rest => needle.isPrefixOf (c :: rest) || pyIsInfix needle rest

/-- Splitting at every character satisfying a predicate, keeping empty
pieces; this is the common core of `str.split(sep)` and `str.split()`. -/
def pySplitOnPred (p : Char → Bool) : PyStr → List PyStr
  | [] => [[]]
  | c :: rest =>
    if p c then [] :: pySplitOnPred p rest
    else
      match pySplitOnPred p rest with
      | [] => [[c]]
      | l :: ls => (c :: l) :: ls

/-- Python `content.split(chr(10))`: split at every newline, keeping empty
lines. -/
def pySplitNl (s : PyStr) : List PyStr := pySplitOnPred (fun c => c = '\n') s

/-- Python `str.split()` with no argument: split on whitespace runs and drop
empty pieces. -/
def pySplitWs (s : PyStr) : List PyStr :=
  (pySplitOnPred pyIsSpace s).filter (fun t => t ≠ [])

/-- Python `sep.join(pieces)` where `sep` is a single newline. -/
def pyJoinNl (pieces : List PyStr) : PyStr := List.intercalate (pyOf "\n") pieces

/-- Result of reading one file from the source tree: the file may be
missing, raise on read, or yield its full text. -/
inductive FileRes where
  | missing : FileRes
  | err (msg : PyStr) : FileRes
  | ok (content : PyStr) : FileRes

/-- A candidate returned by the vector-store backend: its payload may or
may not carry a `path` key (`r.payload.get("path", "Unknown")`), and it
has a similarity score. -/
structure Candidate where
  payloadPath : Option PyStr
  score : ℚ
deriving DecidableEq

/-- The collaborators and configuration the program reads at startup:
source-tree root, minimum relevance score, the filesystem, the embedding
backend and the vector-store backend (the latter two may raise). -/
structure Env where
  sourceRoot : PyStr
  minScore : ℚ
  fs : PyStr → FileRes
  embed : PyStr → Except PyStr (List ℚ)
  search : List ℚ → Int → Except PyStr (List Candidate)

/-- Embedding of `priority_paths` from `is_relevant_file`. -/
def priority_paths : List PyStr :=
  [pyOf "crates/bevy_ecs", pyOf "crates/bevy_app", pyOf "crates/bevy_core", pyOf "src/"]

/-- Embedding of `example_paths` from `is_relevant_file`. -/
def example_paths : List PyStr := [pyOf "examples/", pyOf "benches/", pyOf "tests/"]

/-- Embedding of `ecs_terms` from `is_relevant_file`. -/
def ecs_terms : List PyStr :=
  [pyOf "entity", pyOf "component", pyOf "system", pyOf "query", pyOf "resource",
   pyOf "world", pyOf "commands"]

/-- Embedding of `rendering_terms` from `is_relevant_file`. -/
def rendering_terms : List PyStr :=
  [pyOf "render", pyOf "mesh", pyOf "material", pyOf "shader", pyOf "camera", pyOf "light"]

/-- Embedding of `is_relevant_file(file_path, query)`: the path/query relevance
classifier.  Returns `(is_relevant, reason)`. -/
def is_relevant_file (file_path query : PyStr) : Bool × PyStr :=
  let path_lower := pyLower file_path
  let query_lower := pyLower query
  let is_priority := priority_paths.any (fun p => pyIsInfix p path_lower)
  let is_example := example_paths.any (fun p => pyIsInfix p path_lower)
  let query_has_ecs := ecs_terms.any (fun term => pyIsInfix term query_lower)
  let query_has_rendering := rendering_terms.any (fun term => pyIsInfix term query_lower)
  if is_priority && !is_example then (true, pyOf "core API file")
  else if is_example && (query_has_ecs || query_has_rendering) then
    (true, pyOf "example file (may contain usage patterns)")
  else if is_example then (false, pyOf "example file (low priority for this query)")
  else (true, pyOf "potentially relevant")

/-- The `for i, line in enumerate(lines)` loop of `read_file_content` that
collects the indices of lines satisfying the match predicate, starting from
index `i`. -/
def collectMatching (p : PyStr → Bool) : Nat → List PyStr → List Nat
  | _, [] => []
  | i, line :: rest =>
    if p line then i :: collectMatching p (i + 1) rest
    else collectMatching p (i + 1) rest

/-- The `context_lines` set of `read_file_content`: starting from the empty
set, for each match index add `range(max(0, idx - 20), min(numLines, idx + 20))`
(note `Nat` subtraction is exactly `max(0, idx - 20)`). -/
def contextLineSet (numLines : Nat) (idxs : List Nat) : Finset Nat :=
  idxs.foldl (fun s idx => s ∪ Finset.Ico (idx - 20) (min numLines (idx + 20))) ∅

/-- Embedding of `read_file_content(file_path, query, max_chars)`: bounded excerpt
extraction.  `sorted(context_lines)` is modelled as the ascending listing
of the set, obtained by filtering `range(numLines)` (every window index is
below `numLines`, so this lists the whole set in ascending order without
duplicates). -/
def read_file_content (env : Env) (file_path query : PyStr) (max_chars : Nat) : PyStr :=
  match env.fs file_path with
  | .missing =>
    pyOf "*File not found at " ++ env.sourceRoot ++ pyOf "/" ++ file_path ++ pyOf "*"
  | .err e => pyOf "*Error reading file: " ++ e ++ pyOf "*"
  | .ok content =>
    let query_terms := pySplitWs (pyLower query)
    let lines := pySplitNl content
    let relevant_line_indices :=
      collectMatching (fun line => query_terms.any (fun term => pyIsInfix term (pyLower line)))
        0 lines
    if relevant_line_indices ≠ [] ∧ max_chars < content.length then
      let context_lines := contextLineSet lines.length (relevant_line_indices.take 5)
      let sorted_lines := (List.range lines.length).filter (fun i => i ∈ context_lines)
      let extracted_content := pyJoinNl (sorted_lines.map (fun i => lines.getD i []))
      if extracted_content.length < max_chars then extracted_content
      else extracted_content.take max_chars ++ pyOf "\n\n... (truncated)"
    else if max_chars < content.length then
      content.take max_chars ++ pyOf "\n\n... (truncated, " ++
        (toString (content.length - max_chars)).toList ++ pyOf " more characters)"
    else content

/-- One entry of the `formatted_results` list built by `query_qdrant`. -/
structure SearchResult where
  path : PyStr
  score : ℚ
  content : PyStr
  relevance_reason : PyStr
deriving DecidableEq

/-- The `for r in results` filtering loop of `query_qdrant`, with
`formatted_results` as the accumulator: skip candidates below
`MIN_RELEVANCE_SCORE`, skip candidates the classifier excludes, extract
content for the survivors, and break as soon as
`len(formatted_results) >= top_k`. -/
def queryLoop (env : Env) (text : PyStr) (top_k : Int) :
    List Candidate → List SearchResult → List SearchResult
  | [], acc => acc
  | r :: rest, acc =>
    let file_path := r.payloadPath.getD (pyOf "Unknown")
    if r.score < env.minScore then queryLoop env text top_k rest acc
    else
      let verdict := is_relevant_file file_path text
      if verdict.1 then
        let content := read_file_content env file_path text 3000
        let acc' := acc ++ [⟨file_path, r.score, content, verdict.2⟩]
        if top_k ≤ (acc'.length : Int) then acc'
        else queryLoop env text top_k rest acc'
      else queryLoop env text top_k rest acc

/-- Embedding of `query_qdrant(text, top_k)`: embed the query, fetch `top_k * 3`
candidates from the vector store, then filter.  Backend failures
propagate as `.error`. -/
def query_qdrant (env : Env) (text : PyStr) (top_k : Int) :
    Except PyStr (List SearchResult) :=
  match env.embed text with
  | .error e => .error e
  | .ok vector =>
    -- `search_limit = top_k * 3` (oversampling so that filtering can drop candidates)
    match env.search vector (top_k * 3) with
    | .error e => .error e
    | .ok results => .ok (queryLoop env text top_k results [])

/-- JSON values, as produced by the JSON parser on one input line.
Numbers are modelled as integers (the protocol fields the program reads —
`id` and `top_k` — are integral in every request the spec describes). -/
inductive JVal where
  | null : JVal
  | bool (b : Bool) : JVal
  | num (n : Int) : JVal
  | str (s : PyStr) : JVal
  | arr (xs : List JVal) : JVal
  | obj (members : List (PyStr × JVal)) : JVal

/-- Lookup of a key in a parsed JSON object (Python `dict` access). -/
def jGet (members : List (PyStr × JVal)) (k : PyStr) : Option JVal :=
  (members.find? (fun m => m.1 = k)).map (fun m => m.2)

/-- Python truthiness of a JSON value (`if method and ...`). -/
def jTruthy : JVal → Bool
  | .null => false
  | .bool b => b
  | .num n => n != 0
  | .str s => !s.isEmpty
  | .arr xs => !xs.isEmpty
  | .obj ms => !ms.isEmpty

/-- Python type name of a JSON value, as it appears in an
`AttributeError` message. -/
def jTypeName : JVal → PyStr
  | .null => pyOf "NoneType"
  | .bool _ => pyOf "bool"
  | .num _ => pyOf "int"
  | .str _ => pyOf "str"
  | .arr _ => pyOf "list"
  | .obj _ => pyOf "dict"

/-- Message of the `AttributeError` raised when an attribute is accessed on
a value that does not support it (for example `5.get(...)`). -/
def attrErrMsg (v : JVal) (attr : PyStr) : PyStr :=
  pyOf "\x27" ++ jTypeName v ++ pyOf "\x27 object has no attribute \x27" ++ attr ++ pyOf "\x27"

/-- Python `f"{v}"` interpolation of a JSON value (composite values would
be rendered by `repr`; the program only interpolates scalars into the
messages the claims mention, so composites get a fixed placeholder). -/
def jFStr : JVal → PyStr
  | .null => pyOf "None"
  | .bool b => if b then pyOf "True" else pyOf "False"
  | .num n => (toString n).toList
  | .str s => s
  | .arr _ => pyOf "[...]"
  | .obj _ => pyOf "\x7b...\x7d"

/-- Python `v.get(k, d)`: raises `AttributeError` unless `v` is a dict. -/
def pyGetD (v : JVal) (k : PyStr) (d : JVal) : Except PyStr JVal :=
  match v with
  | .obj ms => .ok ((jGet ms k).getD d)
  | other => .error (attrErrMsg other (pyOf "get"))

/-- Python decimal rendering of a score for `f"{score:.4f}"`: scale by
10000, round (ties modelled upward; the program never formats an exact
tie), and print with four fractional digits. -/
def formatScore4 (q : ℚ) : PyStr :=
  let scaled : Int := ⌊q * 10000 + 1 / 2⌋
  let mag : Nat := scaled.natAbs
  let intPart := (toString (mag / 10000)).toList
  let fracDigits := (toString (mag % 10000)).toList
  let frac := List.replicate (4 - fracDigits.length) '0' ++ fracDigits
  (if scaled < 0 then pyOf "-" else []) ++ intPart ++ pyOf "." ++ frac

/-- The text block `handle_call_tool` builds for the `i`-th result
(`enumerate(results, 1)`). -/
def formatResultText (i : Nat) (r : SearchResult) : PyStr :=
  pyOf "**Result " ++ (toString i).toList ++ pyOf "** (relevance: " ++
    formatScore4 r.score ++ pyOf ") - " ++ r.relevance_reason ++ pyOf "\n" ++
    pyOf "**File**: `" ++ r.path ++ pyOf "`\n\n" ++
    pyOf "**Content**:\n```rust\n" ++ r.content ++ pyOf "\n```\n\n" ++
    pyOf "---\n\n"

/-- The `content` array entries of a successful `tools/call` response. -/
def formatContent (results : List SearchResult) : List JVal :=
  (List.range results.length).map (fun i =>
    .obj [(pyOf "type", .str (pyOf "text")),
          (pyOf "text", .str (formatResultText (i + 1) (results.getD i ⟨[], 0, [], []⟩)))])

/-- The advisory response body returned when the pipeline finds nothing. -/
def noResultsVal : JVal :=
  .obj [(pyOf "content", .arr
    [.obj [(pyOf "type", .str (pyOf "text")),
           (pyOf "text", .str (pyOf "No relevant results found. Try:\n- Using more specific Bevy terminology\n- Rephrasing your query\n- Searching for related concepts"))]])]

/-- Embedding of `handle_initialize(request)`: static protocol/capability information. -/
def handle_init (_request : JVal) : JVal :=
  .obj [(pyOf "protocolVersion", .str (pyOf "2024-11-05")),
        (pyOf "capabilities", .obj [(pyOf "tools", .obj [])]),
        (pyOf "serverInfo", .obj [(pyOf "name", .str (pyOf "query-qdrant")),
                                  (pyOf "version", .str (pyOf "1.0.0"))])]

/-- The static description text of the one exposed tool. -/
def toolDescription : PyStr :=
  pyOf "Search the Bevy 0.14.2 source code using semantic search with intelligent filtering.\n\nUse this tool when:\n- User asks about Bevy ECS, entities, components, systems, resources, or queries\n- You need to verify Bevy 0.14.2 specific APIs, syntax, or behavior\n- Initial solutions didn\x27t work and you need to check actual implementation\n- User explicitly requests documentation lookup\n\nReturns: Relevant Bevy source files with actual code content, prioritizing core API files over examples.\n\nQuery tips:\n- Use specific terms: \"spawn entity\", \"Query<&Transform>\", \"Commands.insert()\"  \n- Include context: \"mutable component query\", \"startup system\"\n- For errors: \"borrow checker error Query\"\n\nNote: Results are filtered for relevance - you\x27ll only see files likely to contain useful information."

/-- Embedding of `handle_list_tools(request)`: the static tool catalog. -/
def handle_list_tools (_request : JVal) : JVal :=
  .obj [(pyOf "tools", .arr
    [.obj [(pyOf "name", .str (pyOf "query_qdrant")),
           (pyOf "description", .str toolDescription),
           (pyOf "inputSchema", .obj
             [(pyOf "type", .str (pyOf "object")),
              (pyOf "properties", .obj
                [(pyOf "query", .obj
                   [(pyOf "type", .str (pyOf "string")),
                    (pyOf "description", .str (pyOf "Semantic search query using specific Bevy terms"))]),
                 (pyOf "top_k", .obj
                   [(pyOf "type", .str (pyOf "number")),
                    (pyOf "description", .str (pyOf "Number of results to return (default: 5)")),
                    (pyOf "default", .num 5)])]),
              (pyOf "required", .arr [.str (pyOf "query")])])]])]

/-- Extraction of the query argument as a string; a non-string query makes
the Python code raise when it slices `text[:100]` for logging, modelled
here as the raising point. -/
def asQueryStr : JVal → Except PyStr PyStr
  | .str s => .ok s
  | v => .error (pyOf "\x27" ++ jTypeName v ++ pyOf "\x27 object is not subscriptable as text")

/-- Extraction of `top_k` as an integer; a non-numeric `top_k` makes the
backend call fail in the Python code, modelled here as the raising point. -/
def asTopK : JVal → Except PyStr Int
  | .num n => .ok n
  | v => .error (pyOf "invalid limit of type \x27" ++ jTypeName v ++ pyOf "\x27")

/-- Embedding of `handle_call_tool(request)`: dispatch on the tool name, run the
pipeline, and format the results; raises on an unknown tool name. -/
def handle_call_tool (env : Env) (request : JVal) : Except PyStr JVal := do
  let params1 ← pyGetD request (pyOf "params") (.obj [])
  let tool_name ← pyGetD params1 (pyOf "name") .null
  let params2 ← pyGetD request (pyOf "params") (.obj [])
  let arguments ← pyGetD params2 (pyOf "arguments") (.obj [])
  match tool_name with
  | .str s =>
    if s = pyOf "query_qdrant" then do
      let queryVal ← pyGetD arguments (pyOf "query") (.str [])
      let topKVal ← pyGetD arguments (pyOf "top_k") (.num 5)
      let query_text ← asQueryStr queryVal
      let top_k ← asTopK topKVal
      let results ← query_qdrant env query_text top_k
      if results = [] then return noResultsVal
      else return .obj [(pyOf "content", .arr (formatContent results))]
    else .error (pyOf "Unknown tool: " ++ s)
  | other => .error (pyOf "Unknown tool: " ++ jFStr other)

/-- The `jsonrpc`/`id`/`result` success envelope. -/
def successResponse (id result : JVal) : JVal :=
  .obj [(pyOf "jsonrpc", .str (pyOf "2.0")), (pyOf "id", id), (pyOf "result", result)]

/-- The `jsonrpc`/`id`/`error` envelope with the fixed code `-32000`. -/
def errorResponse (id : JVal) (msg : PyStr) : JVal :=
  .obj [(pyOf "jsonrpc", .str (pyOf "2.0")), (pyOf "id", id),
        (pyOf "error", .obj [(pyOf "code", .num (-32000)), (pyOf "message", .str msg)])]

/-- Method dispatch of the loop body (`if method == "initialize": ...`),
after the notification check; a raised exception carries the request id
that was in scope when it was raised. -/
def dispatchMethod (env : Env) (request req_id : JVal) (method : JVal) :
    Except (JVal × PyStr) (Option (JVal × JVal)) :=
  match method with
  | .str s =>
    if s = pyOf "initialize" then .ok (some (req_id, handle_init request))
    else if s = pyOf "tools/list" then .ok (some (req_id, handle_list_tools request))
    else if s = pyOf "tools/call" then
      match handle_call_tool env request with
      | .ok r => .ok (some (req_id, r))
      | .error e => .error (req_id, e)
    else .error (req_id, pyOf "Unknown method: " ++ s)
  | other => .error (req_id, pyOf "Unknown method: " ++ jFStr other)

/-- The `try`-body of one loop iteration, applied to the parsed JSON value
of one input line.  `.ok none` means no response is emitted (notification);
`.ok (some (id, result))` a success response; `.error (id, msg)` a raised
exception caught by the loop handler, paired with the `req_id` in scope at
the raise (the fallback `1` when `request.get("id", 1)` itself raised). -/
def runRequest (env : Env) (v : JVal) : Except (JVal × PyStr) (Option (JVal × JVal)) :=
  match v with
  | .obj ms =>
    let req_id := (jGet ms (pyOf "id")).getD (.num 1)
    let method := (jGet ms (pyOf "method")).getD .null
    if jTruthy method then
      match method with
      | .str s =>
        if (pyOf "notifications/").isPrefixOf s then .ok none
        else dispatchMethod env (.obj ms) req_id method
      | other => .error (req_id, attrErrMsg other (pyOf "startswith"))
    else dispatchMethod env (.obj ms) req_id method
  | other => .error (.num 1, attrErrMsg other (pyOf "get"))

/-- Embedding of `mcp_loop()`: process the input lines in order until end of input.
Each element of the input list is one line as seen by the JSON parser
(`none` = unparsable).  The output list collects the response objects
printed to standard output, in order. -/
def mcp_loop (env : Env) : List (Option JVal) → List JVal
  | [] => []
  | none :: rest => mcp_loop env rest
  | some v :: rest =>
    match runRequest env v with
    | .ok none => mcp_loop env rest
    | .ok (some (id, result)) => successResponse id result :: mcp_loop env rest
    | .error (id, msg) => errorResponse id msg :: mcp_loop env rest

/-- Spec §4.1 decision table, written from the spec wording: a path
matching a priority fragment and no low-priority fragment is a core API
file; a low-priority path is included only when the query contains a term
from either vocabulary category; all other paths are potentially
relevant. -/
def specClassify (path query : PyStr) : Bool × PyStr :=
  let matchesPriority := priority_paths.any (fun f => pyIsInfix f (pyLower path))
  let matchesLow := example_paths.any (fun f => pyIsInfix f (pyLower path))
  let queryHasVocab := (ecs_terms ++ rendering_terms).any (fun t => pyIsInfix t (pyLower query))
  if matchesPriority && !matchesLow then (true, pyOf "core API file")
  else if matchesLow && queryHasVocab then
    (true, pyOf "example file (may contain usage patterns)")
  else if matchesLow then (false, pyOf "example file (low priority for this query)")
  else (true, pyOf "potentially relevant")

/-- Spec §4.2 step 4, written from the spec wording: tokenize the query by
whitespace (case-insensitive) and collect the indices of all lines that
contain a substring match of any query token. -/
def specMatchingIndices (lines : List PyStr) (query : PyStr) : List Nat :=
  let terms := pySplitWs (pyLower query)
  (List.range lines.length).filter
    (fun i => terms.any (fun term => pyIsInfix term (pyLower (lines.getD i []))))

/-- The window-extraction step exactly as claim C4 states it: for each of
the first 5 matching indices a context window of plus or minus 20 lines
(inclusive on both sides) clamped to file bounds, unioned into one
ascending deduplicated index list, joined in order, and hard-truncated
with a marker only when the joined excerpt strictly exceeds the budget. -/
def claimedExtract (content query : PyStr) (budget : Nat) : PyStr :=
  let lines := pySplitNl content
  let idxs := (specMatchingIndices lines query).take 5
  let windowIdxs := (List.range lines.length).filter
    (fun i => idxs.any (fun idx => decide (idx - 20 ≤ i) && decide (i < min lines.length (idx + 21))))
  let excerpt := pyJoinNl (windowIdxs.map (fun i => lines.getD i []))
  if budget < excerpt.length then excerpt.take budget ++ pyOf "\n\n... (truncated)"
  else excerpt

/-- The window-extraction step as the code actually behaves (the amended
claim C4): each context window runs from 20 lines before the match to 19
lines after it (a half-open range ending at `idx + 20`), clamped to file
bounds; windows are unioned into one ascending deduplicated index list
and joined in order; the joined excerpt is hard-truncated to the budget
with a marker appended whenever its length is at least the budget. -/
def specExtractAmended (content query : PyStr) (budget : Nat) : PyStr :=
  let lines := pySplitNl content
  let idxs := (specMatchingIndices lines query).take 5
  let windowIdxs := (List.range lines.length).filter
    (fun i => idxs.any (fun idx => decide (idx - 20 ≤ i) && decide (i < min lines.length (idx + 20))))
  let excerpt := pyJoinNl (windowIdxs.map (fun i => lines.getD i []))
  if excerpt.length < budget then excerpt
  else excerpt.take budget ++ pyOf "\n\n... (truncated)"

/-- A similarity score of 0.7, in lowest terms so that it evaluates inside
the kernel. -/
def score07 : ℚ := ⟨7, 10, by norm_num, by norm_num⟩

/-- A similarity score of 0.3. -/
def score03 : ℚ := ⟨3, 10, by norm_num, by norm_num⟩

/-- The default minimum relevance score 0.5. -/
def half : ℚ := ⟨1, 2, by norm_num, by norm_num⟩

/-- A concrete candidate that passes both the score threshold and the
relevance classifier. -/
def candW : Candidate := ⟨some (pyOf "crates/bevy_ecs/a.rs"), score07⟩

/-- A concrete candidate whose score 0.3 is below the 0.5 threshold. -/
def candLow : Candidate := ⟨some (pyOf "crates/bevy_ecs/b.rs"), score03⟩

/-- A concrete environment for witnesses: one short readable file, a
backend returning `candW` then `candLow`. -/
def envW : Env where
  sourceRoot := pyOf "root"
  minScore := half
  fs := fun _ => .ok (pyOf "code")
  embed := fun _ => .ok []
  search := fun _ _ => .ok [candW, candLow]

/-- A concrete environment whose one file `f` holds the eight characters
`abcdefgh`. -/
def envC3 : Env where
  sourceRoot := pyOf "root"
  minScore := half
  fs := fun p => if p = pyOf "f" then .ok (pyOf "abcdefgh") else .missing
  embed := fun _ => .ok []
  search := fun _ _ => .ok []

/-- A 25-line file: one line `q` followed by 24 lines `a` (49 characters
in total). -/
def contentC4 : PyStr := pyJoinNl (pyOf "q" :: List.replicate 24 (pyOf "a"))

/-- A concrete environment whose one file `f` holds `contentC4`. -/
def envC4 : Env where
  sourceRoot := pyOf "root"
  minScore := half
  fs := fun p => if p = pyOf "f" then .ok contentC4 else .missing
  embed := fun _ => .ok []
  search := fun _ _ => .ok []

/-- A concrete environment in which every file is missing. -/
def envM : Env where
  sourceRoot := pyOf "root"
  minScore := half
  fs := fun _ => .missing
  embed := fun _ => .ok []
  search := fun _ _ => .ok []

/-- A parsed request with an unknown method name and id 7. -/
def reqBadMethod : JVal :=
  .obj [(pyOf "id", .num 7), (pyOf "method", .str (pyOf "bogus"))]

/-- A parsed, well-formed `tools/list` request with id 1. -/
def reqToolsList : JVal :=
  .obj [(pyOf "jsonrpc", .str (pyOf "2.0")), (pyOf "id", .num 1),
        (pyOf "method", .str (pyOf "tools/list"))]

lemma queryLoop_score_ge (env : Env) (text : PyStr) (top_k : Int) :
    ∀ (cs : List Candidate) (acc : List SearchResult),
      (∀ r ∈ acc, env.minScore ≤ r.score) →
      ∀ r ∈ queryLoop env text top_k cs acc, env.minScore ≤ r.score := by
  intro cs
  induction cs with
  | nil =>
    intro acc hacc r hr
    simpa [queryLoop] using hacc r (by simpa [queryLoop] using hr)
  | cons c rest ih =>
    intro acc hacc r hr
    simp only [queryLoop] at hr
    split at hr
    · exact ih acc hacc r hr
    · next hscore =>
      split at hr
      · split at hr
        · -- broke immediately after appending
          rcases List.mem_append.mp hr with h | h
          · exact hacc r h
          · rcases List.mem_singleton.mp h with rfl
            exact le_of_not_lt hscore
        · refine ih _ ?_ r hr
          intro r' hr'
          rcases List.mem_append.mp hr' with h | h
          · exact hacc r' h
          · rcases List.mem_singleton.mp h with rfl
            exact le_of_not_lt hscore
      · exact ih acc hacc r hr

lemma queryLoop_length_le (env : Env) (text : PyStr) (top_k : Int) :
    ∀ (cs : List Candidate) (acc : List SearchResult),
      (acc.length : Int) < top_k →
      ((queryLoop env text top_k cs acc).length : Int) ≤ top_k := by
  intro cs
  induction cs with
  | nil =>
    intro acc hacc
    simpa [queryLoop] using le_of_lt hacc
  | cons c rest ih =>
    intro acc hacc
    simp only [queryLoop]
    split
    · exact ih acc hacc
    · split
      · split
        · next hfull =>
          simp only [List.length_append, List.length_singleton]
          push_cast
          omega
        · next hnot =>
          refine ih _ ?_
          push_neg at hnot
          exact hnot
      · exact ih acc hacc

lemma queryLoop_stop (env : Env) (text : PyStr) (top_k : Int) :
    ∀ (cs₁ cs₂ : List Candidate) (acc : List SearchResult),
      (acc.length : Int) < top_k →
      top_k ≤ ((queryLoop env text top_k cs₁ acc).length : Int) →
      queryLoop env text top_k (cs₁ ++ cs₂) acc = queryLoop env text top_k cs₁ acc := by
  intro cs₁
  induction cs₁ with
  | nil =>
    intro cs₂ acc hacc hfull
    simp only [queryLoop] at hfull
    omega
  | cons c rest ih =>
    intro cs₂ acc hacc hfull
    simp only [queryLoop, List.cons_append] at hfull ⊢
    split at hfull
    · next h =>
      simp only [h, if_pos]
      exact ih cs₂ acc hacc hfull
    · next h =>
      simp only [h, if_neg, if_false]
      split at hfull
      · next hrel =>
        simp only [hrel, if_pos]
        split at hfull
        · next hbrk => simp only [hbrk, if_pos]
        · next hbrk =>
          simp only [hbrk, if_neg, if_false]
          refine ih cs₂ _ ?_ hfull
          push_neg at hbrk
          exact hbrk
      · next hrel =>
        simp only [hrel]
        simp only [Bool.false_eq_true, if_false]
        exact ih cs₂ acc hacc hfull

lemma queryLoop_topk_nonpos (env : Env) (text : PyStr) (top_k : Int) (h : top_k ≤ 0) :
    ∀ cs : List Candidate,
      (∃ c ∈ cs, ¬ c.score < env.minScore ∧
        (is_relevant_file (c.payloadPath.getD (pyOf "Unknown")) text).1 = true) →
      (queryLoop env text top_k cs []).length = 1 := by
  intro cs
  induction cs with
  | nil =>
    rintro ⟨c, hc, -⟩
    exact absurd hc (List.not_mem_nil c)
  | cons c rest ih =>
    rintro ⟨c', hc', hsc, hrel⟩
    simp only [queryLoop]
    split
    · next h1 =>
      apply ih
      rcases List.mem_cons.mp hc' with rfl | hmem
      · exact absurd h1 hsc
      · exact ⟨c', hmem, hsc, hrel⟩
    · next h1 =>
      split
      · next h2 =>
        split
        · simp
        · next hbrk =>
          exfalso
          apply hbrk
          simp only [List.nil_append, List.length_singleton, Nat.cast_one]
          omega
      · next h2 =>
        apply ih
        rcases List.mem_cons.mp hc' with rfl | hmem
        · exact absurd hrel h2
        · exact ⟨c', hmem, hsc, hrel⟩

/-- C1: every `SearchResult` that `query_qdrant` returns has
`score ≥ MIN_RELEVANCE_SCORE`; a candidate scoring below the threshold is
never included, regardless of its path (the statement quantifies over
every environment, so over every candidate list and path). -/
theorem c1_results_meet_min_score (env : Env) (text : PyStr) (top_k : Int)
    (res : List SearchResult) (h : query_qdrant env text top_k = .ok res) :
    ∀ r ∈ res, env.minScore ≤ r.score := by
  unfold query_qdrant at h
  split at h
  · exact absurd h (by simp)
  · split at h
    · exact absurd h (by simp)
    · have hres : res = queryLoop env text top_k _ [] := (Except.ok.inj h).symm
      rw [hres]
      exact queryLoop_score_ge env text top_k _ []
        (by intro r hr; exact absurd hr (List.not_mem_nil r))

/-- Witness for C1 at a concrete environment: the surviving candidate of
`envW` scores 0.7 against the threshold 0.5. -/
theorem c1_witness : envW.minScore ≤ score07 :=
  c1_results_meet_min_score envW (pyOf "x") 5
    [⟨pyOf "crates/bevy_ecs/a.rs", score07, pyOf "code", pyOf "core API file"⟩]
    (by rfl)
    ⟨pyOf "crates/bevy_ecs/a.rs", score07, pyOf "code", pyOf "core API file"⟩
    (List.mem_singleton_self _)

/-- C2: for `top_k ≥ 1` the pipeline returns at most `top_k` results, and
it stops consuming candidates as soon as `top_k` results are collected:
appending further candidates after the point where `top_k` results exist
does not change the outcome (they are never classified or extracted). -/
theorem c2_at_most_topk_and_early_stop (env : Env) (text : PyStr) (top_k : Int)
    (h : 1 ≤ top_k) :
    (∀ res, query_qdrant env text top_k = .ok res → (res.length : Int) ≤ top_k) ∧
    (∀ cs₁ cs₂ : List Candidate,
      top_k ≤ ((queryLoop env text top_k cs₁ []).length : Int) →
      queryLoop env text top_k (cs₁ ++ cs₂) [] = queryLoop env text top_k cs₁ []) := by
  constructor
  · intro res hres
    unfold query_qdrant at hres
    split at hres
    · exact absurd hres (by simp)
    · split at hres
      · exact absurd hres (by simp)
      · have hr : res = queryLoop env text top_k _ [] := (Except.ok.inj hres).symm
        rw [hr]
        exact queryLoop_length_le env text top_k _ [] (by simp; omega)
  · intro cs₁ cs₂ hfull
    exact queryLoop_stop env text top_k cs₁ cs₂ [] (by simp; omega) hfull

/-- Witness for C2 at a concrete environment: with `top_k = 1`, `envW`
yields exactly one result. -/
theorem c2_witness :
    (([⟨pyOf "crates/bevy_ecs/a.rs", score07, pyOf "code", pyOf "core API file"⟩] :
      List SearchResult).length : Int) ≤ 1 :=
  (c2_at_most_topk_and_early_stop envW (pyOf "x") 1 (by norm_num)).1
    [⟨pyOf "crates/bevy_ecs/a.rs", score07, pyOf "code", pyOf "core API file"⟩]
    (by rfl)

/-- C10: the `top_k ≤ count` bound holds only under `top_k ≥ 1`: the
early-stop check runs only after a result is appended, so with
`top_k ≤ 0` and at least one candidate passing both the score threshold
and the relevance filter, `query_qdrant` returns exactly one result, not
zero (`handle_call_tool` passes `top_k` from the request arguments to
`query_qdrant` without validation). -/
theorem c10_topk_nonpos_yields_one_result (env : Env) (text : PyStr) (top_k : Int)
    (vec : List ℚ) (cs : List Candidate)
    (h1 : env.embed text = .ok vec)
    (h2 : env.search vec (top_k * 3) = .ok cs)
    (h3 : top_k ≤ 0)
    (h4 : ∃ c ∈ cs, ¬ c.score < env.minScore ∧
      (is_relevant_file (c.payloadPath.getD (pyOf "Unknown")) text).1 = true) :
    ∃ res, query_qdrant env text top_k = .ok res ∧ res.length = 1 := by
  refine ⟨queryLoop env text top_k cs [], ?_, queryLoop_topk_nonpos env text top_k h3 cs h4⟩
  unfold query_qdrant
  split
  · rename_i e heq
    rw [h1] at heq
    cases heq
  · rename_i vector heq
    rw [h1] at heq
    injection heq with hv
    subst hv
    split
    · rename_i e heq2
      rw [h2] at heq2
      cases heq2
    · rename_i cs' heq2
      rw [h2] at heq2
      injection heq2 with hc
      subst hc
      rfl

/-- Witness for C10 at a concrete environment: `top_k = 0` with a passing
candidate still yields one result. -/
theorem c10_witness : ∃ res, query_qdrant envW (pyOf "x") 0 = .ok res ∧ res.length = 1 :=
  c10_topk_nonpos_yields_one_result envW (pyOf "x") 0 [] [candW, candLow]
    (by rfl) (by rfl) (by norm_num)
    ⟨candW, List.mem_cons_self _ _, by decide, by decide⟩

/-- C5: the classifier follows the four-branch decision table of the spec,
in order and case-insensitively, and on Scenario A
(`crates/bevy_ecs/src/system/query.rs`, query `entity component`) returns
inclusion with reason `core API file`. -/
theorem c5_classifier_decision_table :
    (∀ path query, is_relevant_file path query = specClassify path query) ∧
    is_relevant_file (pyOf "crates/bevy_ecs/src/system/query.rs") (pyOf "entity component") =
      (true, pyOf "core API file") := by
  constructor
  · intro path query
    simp only [is_relevant_file, specClassify, List.any_append]
  · decide

/-- C6: the extractor never raises: a missing file and a file whose read
fails both yield a human-readable diagnostic string as the excerpt
content (the function is total by construction, so the enclosing request
always succeeds). -/
theorem c6_extractor_fails_softly (env : Env) (file_path query : PyStr) (max_chars : Nat) :
    (env.fs file_path = .missing →
      read_file_content env file_path query max_chars =
        pyOf "*File not found at " ++ env.sourceRoot ++ pyOf "/" ++ file_path ++ pyOf "*") ∧
    (∀ e, env.fs file_path = .err e →
      read_file_content env file_path query max_chars =
        pyOf "*Error reading file: " ++ e ++ pyOf "*") := by
  constructor
  · intro h
    unfold read_file_content
    rw [h]
  · intro e h
    unfold read_file_content
    rw [h]

/-- Witness for C6 at a concrete environment in which the file is
missing: the diagnostic excerpt is returned. -/
theorem c6_witness :
    read_file_content envM (pyOf "f") (pyOf "q") 3000 =
      pyOf "*File not found at " ++ pyOf "root" ++ pyOf "/" ++ pyOf "f" ++ pyOf "*" :=
  (c6_extractor_fails_softly envM (pyOf "f") (pyOf "q") 3000).1 rfl

lemma dispatchMethod_error_id (env : Env) (request req_id method : JVal)
    (id : JVal) (msg : PyStr)
    (h : dispatchMethod env request req_id method = .error (id, msg)) : id = req_id := by
  unfold dispatchMethod at h
  split at h
  · split at h
    · cases h
    · split at h
      · cases h
      · split at h
        · split at h
          · cases h
          · injection h with h1
            injection h1 with h2 h3
            exact h2.symm
        · injection h with h1
          injection h1 with h2 h3
          exact h2.symm
  · injection h with h1
    injection h1 with h2 h3
    exact h2.symm

lemma runRequest_obj_error_id (env : Env) (ms : List (PyStr × JVal))
    (id : JVal) (msg : PyStr)
    (h : runRequest env (.obj ms) = .error (id, msg)) :
    id = (jGet ms (pyOf "id")).getD (.num 1) := by
  simp only [runRequest] at h
  split at h
  · split at h
    · split at h
      · cases h
      · exact dispatchMethod_error_id env _ _ _ id msg h
    · injection h with h1
      injection h1 with h2 h3
      exact h2.symm
  · exact dispatchMethod_error_id env _ _ _ id msg h

/-- C7: when dispatch of a parsed request raises (unknown method, unknown
tool, or any exception inside a known method), the loop emits exactly one
error response with code `-32000` carrying the parsed id (the fallback id
when the parsed value had none), and continues with the remaining
lines. -/
theorem c7_dispatch_error_response (env : Env) (v : JVal) (rest : List (Option JVal))
    (id : JVal) (msg : PyStr) (h : runRequest env v = .error (id, msg)) :
    mcp_loop env (some v :: rest) = errorResponse id msg :: mcp_loop env rest ∧
    errorResponse id msg =
      .obj [(pyOf "jsonrpc", .str (pyOf "2.0")), (pyOf "id", id),
            (pyOf "error", .obj [(pyOf "code", .num (-32000)),
                                 (pyOf "message", .str msg)])] ∧
    (∀ ms, v = .obj ms → id = (jGet ms (pyOf "id")).getD (.num 1)) := by
  refine ⟨?_, rfl, ?_⟩
  · simp only [mcp_loop, h]
  · rintro ms rfl
    exact runRequest_obj_error_id env ms id msg h

/-- Witness for C7 at a concrete request with an unknown method name and
id 7: one error response is emitted and the loop goes on. -/
theorem c7_witness :
    mcp_loop envW (some reqBadMethod :: []) =
      errorResponse (.num 7) (pyOf "Unknown method: bogus") :: mcp_loop envW [] :=
  (c7_dispatch_error_response envW reqBadMethod [] (.num 7)
    (pyOf "Unknown method: bogus") (by rfl)).1

/-- C8: an input line that fails JSON parsing produces no response at all
and the loop continues; in particular an unparsable line followed by one
valid `tools/list` request produces exactly one output line, the response
to the valid request. -/
theorem c8_parse_failure_silent :
    (∀ (env : Env) (rest : List (Option JVal)),
      mcp_loop env (none :: rest) = mcp_loop env rest) ∧
    mcp_loop envW [none, some reqToolsList] =
      [successResponse (.num 1) (handle_list_tools reqToolsList)] := by
  constructor
  · intro env rest
    rfl
  · rfl

/-- C9: a line that parses to valid JSON that is not an object is not
silently dropped: extracting `id` raises an `AttributeError`, and the
loop emits an error response with code `-32000` and the fallback id 1. -/
theorem c9_nonobject_line_gets_error (env : Env) (v : JVal) (rest : List (Option JVal))
    (h : ∀ ms, v ≠ .obj ms) :
    mcp_loop env (some v :: rest) =
      errorResponse (.num 1) (attrErrMsg v (pyOf "get")) :: mcp_loop env rest ∧
    errorResponse (.num 1) (attrErrMsg v (pyOf "get")) =
      .obj [(pyOf "jsonrpc", .str (pyOf "2.0")), (pyOf "id", .num 1),
            (pyOf "error", .obj [(pyOf "code", .num (-32000)),
                                 (pyOf "message", .str (attrErrMsg v (pyOf "get")))])] := by
  refine ⟨?_, rfl⟩
  cases v with
  | obj ms => exact absurd rfl (h ms)
  | null => rfl
  | bool b => rfl
  | num n => rfl
  | str s => rfl
  | arr xs => rfl

/-- Witness for C9 at a concrete non-object line (a bare JSON string):
the loop answers with the fallback-id error response. -/
theorem c9_witness :
    mcp_loop envW (some (.str (pyOf "hello")) :: []) =
      errorResponse (.num 1) (attrErrMsg (.str (pyOf "hello")) (pyOf "get")) ::
        mcp_loop envW [] :=
  (c9_nonobject_line_gets_error envW (.str (pyOf "hello")) []
    (fun _ hh => JVal.noConfusion hh)).1

lemma truncMarkerShape (E : PyStr) (budget : Nat) :
    ∃ body tail, E.take budget ++ pyOf "\n\n... (truncated)" =
      body ++ (pyOf "\n\n... (truncated" ++ tail) ∧ body.length ≤ budget := by
  refine ⟨E.take budget, pyOf ")", ?_, ?_⟩
  · rw [show pyOf "\n\n... (truncated" ++ pyOf ")" = pyOf "\n\n... (truncated)" by decide]
  · rw [List.length_take]
    exact min_le_left _ _

lemma truncMarkerShapeCount (C : PyStr) (budget n : Nat) :
    ∃ body tail, C.take budget ++ pyOf "\n\n... (truncated, " ++ (toString n).toList ++
        pyOf " more characters)" =
      body ++ (pyOf "\n\n... (truncated" ++ tail) ∧ body.length ≤ budget := by
  refine ⟨C.take budget, pyOf ", " ++ ((toString n).toList ++ pyOf " more characters)"), ?_, ?_⟩
  · rw [show pyOf "\n\n... (truncated, " = pyOf "\n\n... (truncated" ++ pyOf ", " by decide]
    simp only [List.append_assoc]
  · rw [List.length_take]
    exact min_le_left _ _

/-- Counterexample to C3 as stated: for the eight-character file of
`envC3`, a budget of 3 and a query with no matching line, the extractor
returns the 3-character prefix plus a truncation marker, so the result
neither fits the budget nor equals the full file content (the marker
makes the returned string longer than the budget). -/
theorem c3_counterexample :
    ¬ ((read_file_content envC3 (pyOf "f") (pyOf "zzz") 3).length ≤ 3 ∨
       read_file_content envC3 (pyOf "f") (pyOf "zzz") 3 = pyOf "abcdefgh") := by
  decide

/-- C3 (amended): for every readable file, content whose length is within
the budget is returned unmodified; content longer than the budget yields
either a windowed excerpt strictly shorter than the budget, or at most
`budget` characters followed by a truncation marker (so the budget is
exceeded only by the marker length). -/
theorem c3_amended_budget_bound (env : Env) (file_path query : PyStr) (budget : Nat)
    (content : PyStr) (h : env.fs file_path = .ok content) :
    (content.length ≤ budget →
      read_file_content env file_path query budget = content) ∧
    (budget < content.length →
      (read_file_content env file_path query budget).length < budget ∨
      ∃ body tail, read_file_content env file_path query budget =
          body ++ (pyOf "\n\n... (truncated" ++ tail) ∧ body.length ≤ budget) := by
  simp only [read_file_content, h]
  constructor
  · intro hle
    split
    · next hcond => exact absurd hcond.2 (by omega)
    · split
      · next hlt => exact absurd hlt (by omega)
      · rfl
  · intro hgt
    split
    · next hcond =>
      split
      · next hlen =>
        left
        exact hlen
      · next hlen =>
        right
        exact truncMarkerShape _ budget
    · next hcond =>
      right
      exact truncMarkerShapeCount content budget (content.length - budget)

/-- Witness for C3 (amended) at a concrete environment: a 4-character
file with budget 3000 is returned whole and unmodified. -/
theorem c3_witness : read_file_content envW (pyOf "p") (pyOf "q") 3000 = pyOf "code" :=
  (c3_amended_budget_bound envW (pyOf "p") (pyOf "q") 3000 (pyOf "code") rfl).1 (by decide)

lemma collectMatching_eq (p : PyStr → Bool) :
    ∀ (l : List PyStr) (k : Nat),
      collectMatching p k l =
        ((List.range l.length).filter (fun i => p (l.getD i []))).map (fun i => i + k) := by
  intro l
  induction l with
  | nil => intro k; rfl
  | cons a t ih =>
    intro k
    have hcomp : ((fun i => i + k) ∘ Nat.succ) = (fun i => i + (k + 1)) :=
      funext fun i => by simp only [Function.comp_apply]; omega
    cases hpa : p a with
    | true =>
      simp only [collectMatching, hpa, if_pos, List.length_cons, List.range_succ_eq_map,
        List.filter_cons, List.getD_cons_zero, List.getD_cons_succ, List.filter_map,
        Function.comp_def, List.map_cons, List.map_map, ih (k + 1)]
      simp [hpa, ← hcomp, Function.comp_def]
    | false =>
      simp only [collectMatching, hpa, List.length_cons, List.range_succ_eq_map,
        List.filter_cons, List.getD_cons_zero, List.getD_cons_succ, List.filter_map,
        Function.comp_def, List.map_map, ih (k + 1)]
      simp [hpa, ← hcomp, Function.comp_def]

lemma contextFold_mem (numLines : Nat) :
    ∀ (idxs : List Nat) (acc : Finset Nat) (i : Nat),
      (i ∈ idxs.foldl
        (fun s idx => s ∪ Finset.Ico (idx - 20) (min numLines (idx + 20))) acc) ↔
      (i ∈ acc ∨ idxs.any
        (fun idx => decide (idx - 20 ≤ i) && decide (i < min numLines (idx + 20))) = true) := by
  intro idxs
  induction idxs with
  | nil => intro acc i; simp
  | cons a t ih =>
    intro acc i
    rw [List.foldl_cons, ih]
    simp only [Finset.mem_union, Finset.mem_Ico, List.any_cons, Bool.or_eq_true,
      Bool.and_eq_true, decide_eq_true_eq]
    tauto

lemma mem_contextLineSet (numLines : Nat) (idxs : List Nat) (i : Nat) :
    (i ∈ contextLineSet numLines idxs) ↔
      idxs.any (fun idx => decide (idx - 20 ≤ i) && decide (i < min numLines (idx + 20))) = true := by
  rw [contextLineSet, contextFold_mem]
  simp

/-- C4 (amended): for a file longer than the budget with at least one
matching line, the extractor takes the first 5 matching indices, forms for
each the context window from 20 lines before the match to 19 lines after
it (a half-open range ending at `idx + 20`) clamped to file bounds, unions
the windows into one ascending deduplicated index list, joins those lines
in original order, and hard-truncates to the budget with a marker exactly
when the joined excerpt's length is at least the budget. -/
theorem c4_amended_window_extraction (env : Env) (file_path query : PyStr)
    (budget : Nat) (content : PyStr)
    (h : env.fs file_path = .ok content)
    (hgt : budget < content.length)
    (hmatch : specMatchingIndices (pySplitNl content) query ≠ []) :
    read_file_content env file_path query budget = specExtractAmended content query budget := by
  have hcm : collectMatching (fun line => (pySplitWs (pyLower query)).any
      (fun term => pyIsInfix term (pyLower line))) 0 (pySplitNl content) =
      specMatchingIndices (pySplitNl content) query := by
    rw [collectMatching_eq]
    simp [specMatchingIndices]
  have hfilter : (List.range (pySplitNl content).length).filter
      (fun i => i ∈ contextLineSet (pySplitNl content).length
        ((specMatchingIndices (pySplitNl content) query).take 5)) =
      (List.range (pySplitNl content).length).filter
        (fun i => ((specMatchingIndices (pySplitNl content) query).take 5).any
          (fun idx => decide (idx - 20 ≤ i) &&
            decide (i < min (pySplitNl content).length (idx + 20)))) := by
    apply List.filter_congr
    intro i _
    rw [Bool.eq_iff_iff]
    simp only [decide_eq_true_eq, List.any_eq_true, Bool.and_eq_true, mem_contextLineSet]
  simp only [read_file_content, h, specExtractAmended, hcm]
  rw [if_pos ⟨hmatch, hgt⟩, hfilter]

/-- Counterexample to C4 as stated: in the 25-line file `contentC4` with
query `q` (matching only line 0) and budget 45, the code's excerpt covers
lines 0 through 19 (39 characters), while the claimed symmetric window of
plus and minus 20 lines would cover lines 0 through 20 (41 characters);
the two extraction results differ. -/
theorem c4_counterexample :
    read_file_content envC4 (pyOf "f") (pyOf "q") 45 ≠
      claimedExtract contentC4 (pyOf "q") 45 := by
  decide

/-- Witness for C4 (amended) at the same concrete input: the extractor
agrees with the amended window description. -/
theorem c4_witness :
    read_file_content envC4 (pyOf "f") (pyOf "q") 45 =
      specExtractAmended contentC4 (pyOf "q") 45 :=
  c4_amended_window_extraction envC4 (pyOf "f") (pyOf "q") 45 contentC4 rfl
    (by decide) (by decide)
